import Mathlib

/-!
Verification of the open-banking eIDAS broker (`app/server_platform.py`)
against its natural-language specification.

The Python module is shallowly embedded: pure helpers become Lean
functions, Python exceptions become an explicit `PyErr` error type with
`Except`, byte strings become `List Nat` (each entry one byte), and the
process environment becomes a function `String → Option String`.
POSIX paths are modelled by their component lists (the segments between
`/` separators): `os.path.join` of the absolute root with a relative
path concatenates component lists, `os.path.abspath` normalizes
(drops `.` and empty segments, resolves `..`), and `os.path.commonpath`
takes the longest common component run.  External library calls
(cryptographic signing primitives, zip extraction, UTF-8 decoding, the
HTTP transport) are parameters of the functions that invoke them.
-/

/-- The Python exceptions raised (or propagated) by `server_platform.py`,
one constructor per distinct raise site / library error class. -/
inductive PyErr where
  /-- `ValueError` from `_get_ob_certs_file_path` (lines 151-154):
  the resolved path is not inside the certificates directory. -/
  | pathEscape (path : String)
  /-- `Exception("ca_cert_path must be specified when verify_cert is set")`
  from `get_ssl_context` (lines 171-174). -/
  | configurationError
  /-- `ValueError` from `_safe_header` (lines 32-36): CR or LF in a header. -/
  | headerInjection
  /-- `UnicodeEncodeError` from `str.encode("latin-1")` on a character above U+00FF. -/
  | unicodeEncodeError
  /-- `UnicodeDecodeError` from `bytes.decode("utf-8")` on invalid UTF-8. -/
  | unicodeDecodeError
  /-- A bare `KeyError` escaping `signWithKey` (line 304): the dict lookup
  `hash_algorithms_map[hash_algorithm]` raises `KeyError`, which the
  surrounding `except AttributeError` clause does not catch. -/
  | keyError (key : String)
  /-- The `AttributeError("Wrong hash algorithm: ...")` that `signWithKey`
  (lines 305-308) would raise — dead code, since a dict lookup never
  raises `AttributeError`. -/
  | attributeError (msg : String)
  /-- The `ValueError("Wrong hash algorithm: ...")` raised by
  `_decode_signature` (lines 273-276) when the hash-algorithm key is
  not in its map. -/
  | wrongHashAlgorithm (alg : String)
  /-- The error `cryptography`'s `decode_dss_signature` raises on bytes
  that do not parse as a DER `SEQUENCE { INTEGER r, INTEGER s }`. -/
  | invalidDerSignature
  /-- `OverflowError` from `int_to_bytes(n, length)` (`int.to_bytes`)
  when `n` is negative or does not fit in `length` bytes. -/
  | overflowError
  /-- `IndexError` from `archive.namelist()[0]` on an empty archive. -/
  | indexError
  deriving DecidableEq, Repr

deriving instance DecidableEq for Except

/-! ## Character-level string helpers

`String.toUpper`, `String.toLower`, `String.contains`, `String.split`
and `str.startswith` are re-expressed over the character list `s.data`
(they are character-wise operations), keeping every definition
evaluable by the kernel. -/

/-- `str.upper()` / `String.toUpper`: upper-case every character. -/
def upperStr (s : String) : String := String.mk (s.data.map Char.toUpper)

/-- `str.lower()` / `String.toLower`: lower-case every character. -/
def lowerStr (s : String) : String := String.mk (s.data.map Char.toLower)

/-- Whether the string contains the character. -/
def strContains (s : String) (c : Char) : Bool := s.data.contains c

/-- `str.split("/")` accumulator: collect the current piece until the
next `/`. -/
def splitSlashAux : List Char → List Char → List String
  | [], acc => [String.mk acc.reverse]
  | c :: rest, acc =>
    if c = '/' then String.mk acc.reverse :: splitSlashAux rest []
    else splitSlashAux rest (c :: acc)

/-- `str.split("/")`. -/
def splitSlash (s : String) : List String := splitSlashAux s.data []

/-- `str.startswith("/")`. -/
def startsWithSlash (s : String) : Bool :=
  match s.data with
  | c :: _ => c = '/'
  | [] => false

/-! ## POSIX path model -/

/-- Split a path string into its components, dropping empty segments and
`.` segments — the component view `posixpath` functions operate on. -/
def splitComponents (s : String) : List String :=
  (splitSlash s).filter (fun c => !(c == "" || c == "."))

/-- One step of `posixpath.normpath` on an absolute path, over a reversed
accumulator of emitted components: `..` pops the previous component
(at the root it is dropped, since `/.. = /`), anything else is kept. -/
def normStep (acc : List String) (c : String) : List String :=
  if c == ".." then acc.tail else c :: acc

/-- `posixpath.normpath` on an absolute path, at the component level. -/
def normalizeComps (cs : List String) : List String :=
  (cs.foldl normStep []).reverse

/-- Components of `os.path.join(root, p)`: an absolute `p` discards the
root, a relative `p` is appended to the root's components. -/
def pathJoinComps (root : List String) (p : String) : List String :=
  if startsWithSlash p then splitComponents p else root ++ splitComponents p

/-- Components of `os.path.abspath(os.path.join(root, p))` where `root`
is the (already canonical) absolute certificates directory. -/
def abspathComps (root : List String) (p : String) : List String :=
  normalizeComps (pathJoinComps root p)

/-- Longest common component run of two absolute paths — the component
core of `os.path.commonpath` on two absolute paths. -/
def commonPrefixL : List String → List String → List String
  | x :: xs, y :: ys => if x = y then x :: commonPrefixL xs ys else []
  | _, _ => []

/-- Render a component list back to the body of an absolute path string. -/
def renderComps : List String → String
  | [] => ""
  | [c] => c
  | c :: cs => c ++ "/" ++ renderComps cs

/-- Render a component list as an absolute path string. -/
def renderAbs (cs : List String) : String := "/" ++ renderComps cs

/-- `ServerPlatform._get_ob_certs_file_path` (lines 149-155): join the
certificates root with the caller-supplied path, canonicalize, and fail
with the path-escape `ValueError` unless `os.path.commonpath` of the
root and the result is the root itself.  `root` is the component list
of the canonical absolute `OB_CERTS_DIR`. -/
def getObCertsFilePath (root : List String) (p : String) : Except PyErr String :=
  let a := abspathComps root p
  if commonPrefixL root a ≠ root then .error (.pathEscape p)
  else .ok (renderAbs a)

/-! ## Password convention -/

/-- The substitution `re.sub(r"[\-\.\/]", "_", key_path)` applies to each
character. -/
def dashDotSlashToUnderscore (c : Char) : Char :=
  if c = '-' || c = '.' || c = '/' then '_' else c

/-- The environment-variable name `_read_key_password` derives from a key
path: replace `-`, `.`, `/` by `_`, upper-case, append `_PASSWORD`. -/
def passwordEnvVar (key_path : String) : String :=
  upperStr (String.mk (key_path.data.map dashDotSlashToUnderscore)) ++ "_PASSWORD"

/-- `_read_key_password` (lines 27-28): look the derived name up in the
process environment (`env` models `os.environ.get`). -/
def read_key_password (env : String → Option String) (key_path : String) :
    Option String :=
  env (passwordEnvVar key_path)

/-! ## Header serialization -/

/-- Whether a string contains a carriage return or a line feed. -/
def hasCRLF (s : String) : Bool :=
  strContains s '\r' || strContains s '\n'

/-- `_safe_header` (lines 31-37): pass the string through unless it
contains CR or LF, in which case raise the header-injection `ValueError`. -/
def safe_header (s : String) : Except PyErr String :=
  if hasCRLF s then .error .headerInjection else .ok s

/-- The Python expression
`(_safe_header(k) + ": " + _safe_header(v) for k, v in headers.items())`
as consumed by `str.join`: the first offending header raises. -/
def safeHeaderLines : List (String × String) → Except PyErr (List String)
  | [] => .ok []
  | (k, v) :: rest => do
    let k' ← safe_header k
    let v' ← safe_header v
    let rest' ← safeHeaderLines rest
    .ok ((k' ++ ": " ++ v') :: rest')

/-- `"\r\n".join(lines)`. -/
def joinCRLF : List String → String
  | [] => ""
  | [x] => x
  | x :: xs => x ++ "\r\n" ++ joinCRLF xs

/-- `str.encode("latin-1")`: one byte per character; a character above
U+00FF raises `UnicodeEncodeError`. -/
def encodeLatin1 (s : String) : Except PyErr (List Nat) :=
  if s.data.any (fun c => 256 ≤ c.toNat) then .error .unicodeEncodeError
  else .ok (s.data.map Char.toNat)

/-- The full header block `_py_serialize_headers` builds before encoding:
status line, CRLF, the `name: value` lines joined with CRLF, and the
terminating blank line. -/
def headerBlock (status_line : String) (headers : List (String × String)) :
    String :=
  status_line ++ "\r\n"
    ++ joinCRLF (headers.map (fun kv => kv.1 ++ ": " ++ kv.2)) ++ "\r\n\r\n"

/-- `_py_serialize_headers` (lines 40-43): guard every header name and
value with `_safe_header`, join with CRLF after the status line,
terminate with a blank line, and encode the result as Latin-1 bytes. -/
def py_serialize_headers (status_line : String)
    (headers : List (String × String)) : Except PyErr (List Nat) := do
  let lines ← safeHeaderLines headers
  encodeLatin1 (status_line ++ "\r\n" ++ joinCRLF lines ++ "\r\n\r\n")

/-! ## DER signature re-encoding -/

/-- Big-endian value of a byte list. -/
def beNat (bs : List Nat) : Nat :=
  bs.foldl (fun acc b => acc * 256 + b) 0

/-- The signed (two's-complement) integer a DER `INTEGER` content
encodes: big-endian, negative when the top bit of the first byte is set. -/
def derIntValue (bs : List Nat) : Int :=
  match bs with
  | [] => 0
  | b :: _ => if 128 ≤ b then (beNat bs : Int) - (256 : Int) ^ bs.length
              else (beNat bs : Int)

/-- Parse one DER TLV of the expected tag from a byte list, returning the
content bytes and the remaining bytes.  Definite short-form and
long-form lengths are both accepted. -/
def parseTLV (tag : Nat) (bs : List Nat) : Option (List Nat × List Nat) :=
  match bs with
  | t :: l :: rest =>
    if t ≠ tag then none
    else if l < 128 then
      if rest.length < l then none else some (rest.take l, rest.drop l)
    else if l = 128 then none
    else
      let n := l - 128
      if rest.length < n then none
      else
        let len := beNat (rest.take n)
        let rest' := rest.drop n
        if rest'.length < len then none
        else some (rest'.take len, rest'.drop len)
  | _ => none

/-- `cryptography`'s `decode_dss_signature`: parse the byte string as a
DER `SEQUENCE { INTEGER r, INTEGER s }` with nothing left over and
return the two integers. -/
def decode_dss_signature (sig : List Nat) : Option (Int × Int) := do
  let (content, rest) ← parseTLV 48 sig
  if rest ≠ [] then none
  else do
    let (rBytes, rest1) ← parseTLV 2 content
    let (sBytes, rest2) ← parseTLV 2 rest1
    if rest2 ≠ [] then none
    else if rBytes = [] || sBytes = [] then none
    else some (derIntValue rBytes, derIntValue sBytes)

/-- `n` written big-endian in exactly `len` bytes (assuming `n < 256^len`). -/
def bigEndianBytes (n : Nat) : Nat → List Nat
  | 0 => []
  | len + 1 => bigEndianBytes (n / 256) len ++ [n % 256]

/-- `cryptography.utils.int_to_bytes(n, len)` = `int.to_bytes(len, "big")`:
raises `OverflowError` when `n` is negative or needs more than `len`
bytes. -/
def int_to_bytes (n : Int) (len : Nat) : Except PyErr (List Nat) :=
  if n < 0 then .error .overflowError
  else if n.toNat < 256 ^ len then .ok (bigEndianBytes n.toNat len)
  else .error .overflowError

/-- The hash-algorithm map of `_decode_signature` (line 270),
`{"SHA256": 256}`, as an association list. -/
def hash_algorithms_map_bits : List (String × Nat) := [("SHA256", 256)]

/-- `ServerPlatform._decode_signature` (lines 268-279): look the bit
length up (raising the wrong-hash `ValueError` on a miss, via
`except KeyError`), decode the DER `(r, s)` pair, and re-encode each as
`(num_bits + 7) // 8` big-endian bytes, concatenated. -/
def decode_signature (signature : List Nat) (hash_algorithm : String) :
    Except PyErr (List Nat) :=
  match hash_algorithms_map_bits.lookup hash_algorithm with
  | none => .error (.wrongHashAlgorithm hash_algorithm)
  | some num_bits =>
    let num_bytes := (num_bits + 7) / 8
    match decode_dss_signature signature with
    | none => .error .invalidDerSignature
    | some (r, s) => do
      let rb ← int_to_bytes r num_bytes
      let sb ← int_to_bytes s num_bytes
      .ok (rb ++ sb)

/-! ## Base64 -/

/-- The standard base64 alphabet. -/
def b64alphabet : List Char :=
  "ABCDEFGHIJKLMNOPQRSTUVWXYZabcdefghijklmnopqrstuvwxyz0123456789+/".data

/-- The base64 character for a 6-bit value. -/
def b64char (n : Nat) : Char := b64alphabet.getD n 'A'

/-- `base64.b64encode` over byte lists (standard alphabet, `=` padding). -/
def b64encodeChars : List Nat → List Char
  | [] => []
  | [a] => [b64char (a / 4), b64char (a % 4 * 16), '=', '=']
  | [a, b] => [b64char (a / 4), b64char (a % 4 * 16 + b / 16),
               b64char (b % 16 * 4), '=']
  | a :: b :: c :: rest =>
    [b64char (a / 4), b64char (a % 4 * 16 + b / 16),
     b64char (b % 16 * 4 + c / 64), b64char (c % 64)] ++ b64encodeChars rest

/-- `base64.b64encode(bytes).decode("utf8")`. -/
def b64encode (bs : List Nat) : String := String.mk (b64encodeChars bs)

/-! ## Signing -/

/-- The hash classes of `signWithKey`'s map `{"SHA256": hashes.SHA256}`. -/
inductive HashAlg where
  | SHA256
  deriving DecidableEq, Repr

/-- The hash-algorithm map of `signWithKey` (line 302), as an
association list. -/
def hash_algorithms_map : List (String × HashAlg) := [("SHA256", .SHA256)]

/-- The hash-selector handling at the top of `signWithKey`
(lines 299-308): default `"SHA256"` when `None`, upper-case, then the
dict lookup `hash_algorithms_map[hash_algorithm]`.  On a missing key the
lookup raises `KeyError`; the `except AttributeError` clause around it
cannot catch that, so the bare `KeyError` propagates and the
`AttributeError("Wrong hash algorithm: ...")` branch is dead code. -/
def normalizeHash (hash_algorithm : Option String) :
    Except PyErr (String × HashAlg) :=
  match hash_algorithms_map.lookup (upperStr (hash_algorithm.getD "SHA256")) with
  | some a => .ok (upperStr (hash_algorithm.getD "SHA256"), a)
  | none => .error (.keyError (upperStr (hash_algorithm.getD "SHA256")))

/-- A private key as returned by `load_pem_private_key`, reduced to its
dispatch-relevant type together with the bytes the external
`cryptography` signing primitives would produce for the call's data:
`key.sign(data, PKCS1v15, h)`, `key.sign(data, PSS, h)`, or the DER
output of `key.sign(data, ECDSA(h))`.  `other` is any further key type
(Ed25519, DSA, X25519, ...). -/
inductive PrivateKey where
  | rsa (signPkcs1v15 : List Nat) (signPss : List Nat)
  | ec (signDer : List Nat)
  | other
  deriving DecidableEq

/-- `ServerPlatform.signWithKey` (lines 281-333), with path resolution,
file reading and key parsing abstracted into the already-loaded
`key : PrivateKey`: validate the hash selector, dispatch on the key
type (RSA with PSS exactly when `crypto_algorithm == "PS"`, EC with the
DER signature re-encoded through `_decode_signature`), and base64-encode
the signature.  A key that is neither RSA nor EC leaves `signature`
at its initial `b""`, so the result is `base64.b64encode(b"")` — no
error is raised. -/
def signWithKey (key : PrivateKey)
    (hash_algorithm crypto_algorithm : Option String) :
    Except PyErr String := do
  let (hs, _hash_obj) ← normalizeHash hash_algorithm
  match key with
  | .rsa pkcs pss =>
    if crypto_algorithm = some "PS" then .ok (b64encode pss)
    else .ok (b64encode pkcs)
  | .ec der => do
    let raw ← decode_signature der hs
    .ok (b64encode raw)
  | .other => .ok (b64encode [])

/-! ## TLS context -/

/-- `ssl` module certificate-verification modes used by the source. -/
inductive VerifyMode where
  | CERT_NONE
  | CERT_REQUIRED
  deriving DecidableEq, Repr

/-- The observable state of an `ssl.SSLContext` as far as
`get_ssl_context` manipulates it.  `verify_flags` is the integer-valued
`ssl.SSLContext.verify_flags` attribute (a distinct attribute from
`verify_mode`); the strict branch assigns `ssl.CERT_REQUIRED`, whose
integer value is 2, to it. -/
structure SSLContext where
  check_hostname : Bool
  verify_mode : VerifyMode
  verify_flags : Nat
  /-- `(certfile, keyfile, password)` passed to `load_cert_chain`. -/
  cert_chain : Option (String × String × Option String)
  /-- CA file passed to `load_verify_locations`, if any. -/
  ca_loaded : Option String
  deriving DecidableEq

/-- `ssl.create_default_context()`: certificate verification and
hostname checking are on by default. -/
def create_default_context : SSLContext :=
  { check_hostname := true
    verify_mode := .CERT_REQUIRED
    verify_flags := 0
    cert_chain := none
    ca_loaded := none }

/-- `ssl._create_unverified_context()`: no hostname check, no
certificate verification. -/
def create_unverified_context : SSLContext :=
  { check_hostname := false
    verify_mode := .CERT_NONE
    verify_flags := 0
    cert_chain := none
    ca_loaded := none }

/-- Python truthiness of an optional string (`None` and `""` are falsy). -/
def optTruthy : Option String → Bool
  | some s => !(s == "")
  | none => false

/-- The `TLS` model (from `models`, per spec §3 TLSParams): relative
certificate, key, and optional CA paths. -/
structure TLS where
  cert_path : String
  key_path : String
  ca_cert_path : Option String
  deriving DecidableEq

/-- `ServerPlatform.get_ssl_context` (lines 157-181): with TLS params,
start from a default context, load the client certificate chain (paths
resolved inside the certificate root, password from the environment
convention), load the CA bundle when a CA path is given, then apply the
verification policy: if the `verify_cert` environment variable is
truthy, require a CA path (raising the configuration error otherwise)
and assign `ssl.CERT_REQUIRED` to `verify_flags`; otherwise switch
hostname checking off and set `verify_mode` to `CERT_NONE`.  Without
TLS params, return an unverified context. -/
def get_ssl_context (env : String → Option String) (root : List String)
    (tls : Option TLS) : Except PyErr SSLContext :=
  match tls with
  | some t => do
    let certFile ← getObCertsFilePath root t.cert_path
    let keyFile ← getObCertsFilePath root t.key_path
    let ctx0 := { create_default_context with
                  cert_chain :=
                    some (certFile, keyFile, read_key_password env t.key_path) }
    let ctx1 ←
      if optTruthy t.ca_cert_path then do
        let caFile ← getObCertsFilePath root (t.ca_cert_path.getD "")
        pure { ctx0 with ca_loaded := some caFile }
      else pure ctx0
    if optTruthy (env "verify_cert") then
      if !optTruthy t.ca_cert_path then .error .configurationError
      else .ok { ctx1 with verify_flags := 2 }
    else .ok { ctx1 with check_hostname := false, verify_mode := .CERT_NONE }
  | none => .ok create_unverified_context

/-! ## Request relay -/

/-- The `MakeRequestParams` model (from `models`, per spec §3
RequestDescriptor), with the fields `makeRequest` reads. -/
structure MakeRequestParams where
  method : String
  origin : String
  path : String
  query : List (String × String)
  headers : List (String × String)
  body : String
  tls : Option TLS
  deriving DecidableEq

/-- The normalized result dictionary `makeRequest` returns:
`{"status": ..., "response": ..., "headers": ...}`. -/
structure RelayResult where
  status : Nat
  response : String
  headers : List (String × String)
  deriving DecidableEq, Repr

/-- What the `aiohttp` transport did for one request: either a response
(status, header pairs in received order, raw body bytes, and the text
`response.text()` would decode), or an `aiohttp.ClientResponseError`
carrying a status, a message, and optional headers. -/
inductive TransportOutcome where
  | success (status : Nat) (headers : List (String × String))
      (body : List Nat) (text : String)
  | clientResponseError (status : Nat) (message : String)
      (headers : Option (List (String × String)))
  deriving DecidableEq

/-- `CIMultiDict.get(name)`: first value whose name matches
case-insensitively. -/
def getHeaderCI (headers : List (String × String)) (name : String) :
    Option String :=
  (headers.find? (fun kv => lowerStr kv.1 == lowerStr name)).map (·.2)

/-- `ServerPlatform._handle_binary_response` (lines 183-191), with the
external `zipfile` library abstracted as `zipExtract`, which returns the
decompressed contents of the archive's files in `namelist()` order, or
`none` when `ZipFile` raises `BadZipFile`: on a valid archive return the
first file's bytes (`namelist()[0]` raises `IndexError` on an empty
archive, which the `except BadZipFile` clause does not catch); on an
invalid archive return the raw response bytes unchanged. -/
def handle_binary_response (zipExtract : List Nat → Option (List (List Nat)))
    (response : List Nat) : Except PyErr (List Nat) :=
  match zipExtract response with
  | some files =>
    match files with
    | f :: _ => .ok f
    | [] => .error .indexError
  | none => .ok response

/-- `ServerPlatform.makeRequest` (lines 193-249), with the network
exchange abstracted as `outcome`, zip extraction as `zipExtract`, and
UTF-8 decoding as `utf8Decode`: build the TLS context first (its errors
propagate — the `try` block does not cover it), then either normalize a
successful response (unwrapping bodies whose `Content-Type` is exactly
`application/octet-stream` through `_handle_binary_response` and UTF-8
decoding) or catch `aiohttp.ClientResponseError` and return the same
result shape built from the error's status, message, and headers
(`[]` when the error carries no truthy headers). -/
def makeRequest (env : String → Option String) (root : List String)
    (zipExtract : List Nat → Option (List (List Nat)))
    (utf8Decode : List Nat → Option String)
    (request : MakeRequestParams) (outcome : TransportOutcome) :
    Except PyErr RelayResult := do
  let _ssl_context ← get_ssl_context env root request.tls
  match outcome with
  | .success status headers body text =>
    if getHeaderCI headers "Content-Type" = some "application/octet-stream" then do
      let unwrapped ← handle_binary_response zipExtract body
      match utf8Decode unwrapped with
      | some s => .ok ⟨status, s, headers⟩
      | none => .error .unicodeDecodeError
    else .ok ⟨status, text, headers⟩
  | .clientResponseError status message headers =>
    .ok ⟨status, message, headers.getD []⟩

/-! ## Theorems -/

theorem commonPrefixL_eq_left :
    ∀ (xs ys : List String), commonPrefixL xs ys = xs ↔ ∃ t, ys = xs ++ t := by
  intro xs
  induction xs with
  | nil =>
    intro ys
    cases ys with
    | nil => exact ⟨fun _ => ⟨[], rfl⟩, fun _ => rfl⟩
    | cons y ys' => exact ⟨fun _ => ⟨y :: ys', rfl⟩, fun _ => rfl⟩
  | cons x xs ih =>
    intro ys
    cases ys with
    | nil =>
      constructor
      · intro h
        exact absurd h (by simp [commonPrefixL])
      · rintro ⟨t, ht⟩
        exact absurd ht (by simp)
    | cons y ys' =>
      by_cases hxy : x = y
      · subst hxy
        show (if x = x then x :: commonPrefixL xs ys' else []) = x :: xs ↔ _
        rw [if_pos rfl]
        constructor
        · intro h
          obtain ⟨t, ht⟩ := (ih ys').mp (by injection h)
          exact ⟨t, by rw [List.cons_append, ← ht]⟩
        · rintro ⟨t, ht⟩
          rw [List.cons_append] at ht
          injection ht with h1 h2
          rw [(ih ys').mpr ⟨t, h2⟩]
      · show (if x = y then x :: commonPrefixL xs ys' else []) = x :: xs ↔ _
        rw [if_neg hxy]
        constructor
        · intro h
          exact absurd h (by simp)
        · rintro ⟨t, ht⟩
          rw [List.cons_append] at ht
          injection ht with h1 h2
          exact absurd h1.symm hxy

theorem renderComps_append :
    ∀ (xs ys : List String), xs ≠ [] → ys ≠ [] →
      renderComps (xs ++ ys) = renderComps xs ++ "/" ++ renderComps ys := by
  intro xs
  induction xs with
  | nil => intro ys h _; exact absurd rfl h
  | cons x xs ih =>
    intro ys _ hy
    cases xs with
    | nil =>
      cases ys with
      | nil => exact absurd rfl hy
      | cons y ys' => rfl
    | cons x' xs' =>
      have step : renderComps (x :: ((x' :: xs') ++ ys))
          = x ++ "/" ++ renderComps ((x' :: xs') ++ ys) := rfl
      calc renderComps ((x :: x' :: xs') ++ ys)
          = x ++ "/" ++ renderComps ((x' :: xs') ++ ys) := step
        _ = x ++ "/" ++ (renderComps (x' :: xs') ++ "/" ++ renderComps ys) := by
              rw [ih ys (by simp) hy]
        _ = renderComps (x :: x' :: xs') ++ "/" ++ renderComps ys := by
              show x ++ "/" ++ (renderComps (x' :: xs') ++ "/" ++ renderComps ys)
                  = (x ++ "/" ++ renderComps (x' :: xs')) ++ "/" ++ renderComps ys
              simp only [String.append_assoc]

theorem renderAbs_extends (xs ys : List String) (h : ∃ t, ys = xs ++ t) :
    ∃ u, renderAbs ys = renderAbs xs ++ u := by
  obtain ⟨t, ht⟩ := h
  subst ht
  cases t with
  | nil =>
    exact ⟨"", by rw [List.append_nil, String.append_empty]⟩
  | cons c cs =>
    cases xs with
    | nil =>
      refine ⟨renderComps (c :: cs), ?_⟩
      show "/" ++ renderComps (c :: cs) = ("/" ++ renderComps []) ++ renderComps (c :: cs)
      rw [show renderComps [] = "" from rfl, String.append_empty]
    | cons x xs' =>
      refine ⟨"/" ++ renderComps (c :: cs), ?_⟩
      show "/" ++ renderComps ((x :: xs') ++ (c :: cs))
          = ("/" ++ renderComps (x :: xs')) ++ ("/" ++ renderComps (c :: cs))
      rw [renderComps_append (x :: xs') (c :: cs) (by simp) (by simp),
          String.append_assoc, String.append_assoc]

/-- C1: `_get_ob_certs_file_path` fails (with the path-escape error)
exactly when the longest common path of the configured root and the
canonicalized join of root and the caller path is not the root itself;
whenever it succeeds, the returned path is absolute and extends the
root. -/
theorem getObCertsFilePath_escape_iff (root : List String) (p : String) :
    ((∃ e, getObCertsFilePath root p = .error e) ↔
      commonPrefixL root (abspathComps root p) ≠ root)
    ∧ (∀ a, getObCertsFilePath root p = .ok a →
        (∃ u, a = renderAbs root ++ u) ∧ ∃ v, a = "/" ++ v) := by
  constructor
  · unfold getObCertsFilePath
    by_cases h : commonPrefixL root (abspathComps root p) ≠ root
    · rw [if_pos h]
      exact ⟨fun _ => h, fun _ => ⟨.pathEscape p, rfl⟩⟩
    · rw [if_neg h]
      constructor
      · rintro ⟨e, he⟩
        cases he
      · intro hc
        exact absurd hc h
  · intro a ha
    unfold getObCertsFilePath at ha
    by_cases h : commonPrefixL root (abspathComps root p) ≠ root
    · rw [if_pos h] at ha
      cases ha
    · rw [if_neg h] at ha
      injection ha with ha
      push_neg at h
      have hpre : ∃ t, abspathComps root p = root ++ t :=
        (commonPrefixL_eq_left root (abspathComps root p)).mp h
      refine ⟨?_, ?_⟩
      · obtain ⟨u, hu⟩ := renderAbs_extends root (abspathComps root p) hpre
        exact ⟨u, by rw [← ha, hu]⟩
      · exact ⟨renderComps (abspathComps root p), by rw [← ha]; rfl⟩

/-- C1 witness: at the default root `/app/open_banking_certs`, the
benign path `bank/cert.pem` resolves inside the root while the
traversal `../../etc/passwd` is rejected. -/
theorem getObCertsFilePath_escape_iff_witness :
    getObCertsFilePath ["app", "open_banking_certs"] "bank/cert.pem"
        = .ok "/app/open_banking_certs/bank/cert.pem"
      ∧ (∃ u, "/app/open_banking_certs/bank/cert.pem"
          = renderAbs ["app", "open_banking_certs"] ++ u)
      ∧ (∃ e, getObCertsFilePath ["app", "open_banking_certs"] "../../etc/passwd"
          = .error e) := by
  refine ⟨by decide, ?_, ?_⟩
  · exact ((getObCertsFilePath_escape_iff ["app", "open_banking_certs"]
      "bank/cert.pem").2 "/app/open_banking_certs/bank/cert.pem" (by decide)).1
  · exact (getObCertsFilePath_escape_iff ["app", "open_banking_certs"]
      "../../etc/passwd").1.mpr (by decide)

/-- C9: `_read_key_password` derives the environment-variable name by
substituting `_` for every `-`, `.`, `/` and upper-casing (character by
character, `_PASSWORD` appended), looks exactly that variable up, and
returns `none` when it is unset; on the spec's example key path the
derived name is `CERTS_BANK_1_KEY_PASSWORD`. -/
theorem read_key_password_spec (env : String → Option String) (k : String) :
    (passwordEnvVar k).data
        = k.data.map (fun c =>
            if c = '-' || c = '.' || c = '/' then '_' else c.toUpper)
          ++ "_PASSWORD".data
    ∧ read_key_password env k = env (passwordEnvVar k)
    ∧ (env (passwordEnvVar k) = none → read_key_password env k = none)
    ∧ passwordEnvVar "certs/bank-1.key" = "CERTS_BANK_1_KEY_PASSWORD" := by
  refine ⟨?_, rfl, fun h => h, by decide⟩
  show (upperStr (String.mk (k.data.map dashDotSlashToUnderscore))
      ++ "_PASSWORD").data = _
  rw [String.data_append]
  show (k.data.map dashDotSlashToUnderscore).map Char.toUpper
      ++ "_PASSWORD".data = _
  rw [List.map_map]
  congr 1
  refine List.map_congr_left ?_
  intro c _
  show (dashDotSlashToUnderscore c).toUpper = _
  unfold dashDotSlashToUnderscore
  by_cases h : c = '-' || c = '.' || c = '/'
  · rw [if_pos h, if_pos h]
    decide
  · rw [if_neg h, if_neg h]

/-- C9 witness: with an empty environment, the password for
`certs/bank-1.key` is absent. -/
theorem read_key_password_spec_witness :
    read_key_password (fun _ => none) "certs/bank-1.key" = none :=
  (read_key_password_spec (fun _ => none) "certs/bank-1.key").2.2.1 rfl

theorem safeHeaderLines_split (hs : List (String × String)) :
    ((∃ kv ∈ hs, hasCRLF kv.1 = true ∨ hasCRLF kv.2 = true)
      ∧ safeHeaderLines hs = .error .headerInjection)
    ∨ ((∀ kv ∈ hs, hasCRLF kv.1 = false ∧ hasCRLF kv.2 = false)
      ∧ safeHeaderLines hs = .ok (hs.map (fun kv => kv.1 ++ ": " ++ kv.2))) := by
  induction hs with
  | nil =>
    refine Or.inr ⟨?_, rfl⟩
    intro kv h
    cases h
  | cons kv rest ih =>
    by_cases hk : hasCRLF kv.1 = true
    · refine Or.inl ⟨⟨kv, List.mem_cons_self kv rest, Or.inl hk⟩, ?_⟩
      show safeHeaderLines (kv :: rest) = _
      unfold safeHeaderLines safe_header
      rw [if_pos hk]
      rfl
    · by_cases hv : hasCRLF kv.2 = true
      · refine Or.inl ⟨⟨kv, List.mem_cons_self kv rest, Or.inr hv⟩, ?_⟩
        show safeHeaderLines (kv :: rest) = _
        unfold safeHeaderLines safe_header
        rw [if_neg hk, if_pos hv]
        rfl
      · rcases ih with ⟨⟨kv', hmem, hbad⟩, herr⟩ | ⟨hclean, hok⟩
        · refine Or.inl ⟨⟨kv', List.mem_cons_of_mem kv hmem, hbad⟩, ?_⟩
          unfold safeHeaderLines safe_header
          rw [if_neg hk, if_neg hv, herr]
          rfl
        · refine Or.inr ⟨?_, ?_⟩
          · intro kv' hmem
            rcases List.mem_cons.mp hmem with h | h
            · subst h
              exact ⟨Bool.eq_false_iff.mpr hk, Bool.eq_false_iff.mpr hv⟩
            · exact hclean kv' h
          · unfold safeHeaderLines safe_header
            rw [if_neg hk, if_neg hv, hok]
            rfl

/-- C2: header serialization raises the header-injection error exactly
when some header name or value contains CR or LF; on a clean header
mapping whose characters are all Latin-1 it produces the status line,
the `name: value` lines joined with CRLF, and the terminating blank
line, encoded one byte per character (byte `i` is the code point of
character `i`, so the output length equals the character count — a
Latin-1, not UTF-8, encoding). -/
theorem py_serialize_headers_spec (sl : String) (hs : List (String × String)) :
    (py_serialize_headers sl hs = .error .headerInjection ↔
      ∃ kv ∈ hs, hasCRLF kv.1 = true ∨ hasCRLF kv.2 = true)
    ∧ ((∀ kv ∈ hs, hasCRLF kv.1 = false ∧ hasCRLF kv.2 = false) →
       (∀ c ∈ (headerBlock sl hs).data, c.toNat < 256) →
       py_serialize_headers sl hs
          = .ok ((headerBlock sl hs).data.map Char.toNat)
        ∧ ((headerBlock sl hs).data.map Char.toNat).length
            = (headerBlock sl hs).data.length) := by
  constructor
  · rcases safeHeaderLines_split hs with ⟨hex, herr⟩ | ⟨hclean, hok⟩
    · constructor
      · intro _
        exact hex
      · intro _
        show (do
          let lines ← safeHeaderLines hs
          encodeLatin1 (sl ++ "\r\n" ++ joinCRLF lines ++ "\r\n\r\n")) = _
        rw [herr]
        rfl
    · constructor
      · intro h
        exfalso
        revert h
        show (do
          let lines ← safeHeaderLines hs
          encodeLatin1 (sl ++ "\r\n" ++ joinCRLF lines ++ "\r\n\r\n")) = _ → False
        rw [hok]
        show encodeLatin1 _ = _ → False
        unfold encodeLatin1
        by_cases hany : ((sl ++ "\r\n"
            ++ joinCRLF (hs.map (fun kv => kv.1 ++ ": " ++ kv.2))
            ++ "\r\n\r\n").data.any (fun c => 256 ≤ c.toNat)) = true
        · rw [if_pos hany]
          intro h
          cases h
        · rw [if_neg hany]
          intro h
          cases h
      · intro hex
        obtain ⟨kv, hmem, hbad⟩ := hex
        rcases hbad with h | h
        · exact absurd h (by rw [(hclean kv hmem).1]; simp)
        · exact absurd h (by rw [(hclean kv hmem).2]; simp)
  · intro hclean hlatin
    rcases safeHeaderLines_split hs with ⟨⟨kv, hmem, hbad⟩, _⟩ | ⟨_, hok⟩
    · rcases hbad with h | h
      · exact absurd h (by rw [(hclean kv hmem).1]; simp)
      · exact absurd h (by rw [(hclean kv hmem).2]; simp)
    · refine ⟨?_, by rw [List.length_map]⟩
      show (do
        let lines ← safeHeaderLines hs
        encodeLatin1 (sl ++ "\r\n" ++ joinCRLF lines ++ "\r\n\r\n")) = _
      rw [hok]
      show encodeLatin1 (headerBlock sl hs) = _
      unfold encodeLatin1
      rw [if_neg ?_]
      intro hany
      obtain ⟨c, hmem, hc⟩ := List.any_eq_true.mp hany
      exact absurd (hlatin c hmem) (by simpa using hc)

/-- C2 witness: a benign request line and host header serialize to the
expected Latin-1 bytes, and a header value embedding CRLF is rejected
with the header-injection error. -/
theorem py_serialize_headers_spec_witness :
    py_serialize_headers "GET / HTTP/1.1" [("Host", "example.test")]
        = .ok ((headerBlock "GET / HTTP/1.1"
            [("Host", "example.test")]).data.map Char.toNat)
    ∧ py_serialize_headers "GET / HTTP/1.1"
        [("X-Evil", "a\r\nInjected: yes")] = .error .headerInjection := by
  constructor
  · exact ((py_serialize_headers_spec "GET / HTTP/1.1"
      [("Host", "example.test")]).2 (by decide) (by decide)).1
  · exact (py_serialize_headers_spec "GET / HTTP/1.1"
      [("X-Evil", "a\r\nInjected: yes")]).1.mpr
      ⟨("X-Evil", "a\r\nInjected: yes"), by simp, Or.inr (by decide)⟩

/-- C3 (code bug): `signWithKey` has no `else` branch after the
RSA / elliptic-curve `isinstance` dispatch, so for a key of any other
type the `signature` variable keeps its initial `b""` and the call
returns `base64.b64encode(b"")` — the empty string — with no
`UnsupportedKeyTypeError` (or any error) raised, contradicting the
spec's "For any other key type: fails with UnsupportedKeyTypeError". -/
theorem signWithKey_other_key_returns_empty :
    signWithKey PrivateKey.other none none = .ok ""
    ∧ signWithKey PrivateKey.other (some "sha256") (some "PS") = .ok "" := by
  decide

/-- C6 (code bug): `signWithKey` defaults the hash selector to
`"SHA256"` and upper-cases it, and `"SHA256"` itself is accepted; but
an unsupported selector makes the dict lookup
`hash_algorithms_map[hash_algorithm]` raise a bare `KeyError`, which
the surrounding `except AttributeError` clause cannot catch — the
`AttributeError("Wrong hash algorithm: ...")` the source means to raise
(the spec's `UnsupportedAlgorithmError`) is dead code, so the bare
`KeyError` escapes `signWithKey`. -/
theorem normalizeHash_unsupported_raises_keyerror :
    normalizeHash none = .ok ("SHA256", HashAlg.SHA256)
    ∧ normalizeHash (some "sha256") = .ok ("SHA256", HashAlg.SHA256)
    ∧ normalizeHash (some "SHA512") = .error (.keyError "SHA512")
    ∧ signWithKey PrivateKey.other (some "SHA512") none
        = .error (.keyError "SHA512")
    ∧ signWithKey (PrivateKey.rsa [1] [2]) (some "md5") none
        = .error (.keyError "MD5") := by
  decide

theorem normalizeHash_cases (h : Option String) :
    normalizeHash h
      = (if upperStr (h.getD "SHA256") = "SHA256"
         then .ok ("SHA256", HashAlg.SHA256)
         else .error (.keyError (upperStr (h.getD "SHA256")))) := by
  by_cases hq : upperStr (h.getD "SHA256") = "SHA256"
  · rw [if_pos hq]
    unfold normalizeHash
    rw [hq]
    decide
  · rw [if_neg hq]
    unfold normalizeHash hash_algorithms_map
    unfold List.lookup
    rw [beq_eq_false_iff_ne.mpr hq]
    rfl

theorem normalizeHash_ok_sha256 (h : Option String) (s : String) (a : HashAlg)
    (hok : normalizeHash h = .ok (s, a)) : s = "SHA256" := by
  rw [normalizeHash_cases] at hok
  by_cases hq : upperStr (h.getD "SHA256") = "SHA256"
  · rw [if_pos hq] at hok
    injection hok with hok
    exact (congrArg Prod.fst hok).symm
  · rw [if_neg hq] at hok
    cases hok

theorem normalizeHash_error_eq (h : Option String) (e : PyErr)
    (he : normalizeHash h = .error e) :
    e = .keyError (upperStr (h.getD "SHA256")) := by
  rw [normalizeHash_cases] at he
  by_cases hq : upperStr (h.getD "SHA256") = "SHA256"
  · rw [if_pos hq] at he
    cases he
  · rw [if_neg hq] at he
    injection he with he
    exact he.symm

theorem int_to_bytes_error_eq (n : Int) (len : Nat) (e : PyErr)
    (h : int_to_bytes n len = .error e) : e = .overflowError := by
  unfold int_to_bytes at h
  by_cases h0 : n < 0
  · rw [if_pos h0] at h
    injection h with h
    exact h.symm
  · rw [if_neg h0] at h
    by_cases h1 : n.toNat < 256 ^ len
    · rw [if_pos h1] at h
      cases h
    · rw [if_neg h1] at h
      injection h with h
      exact h.symm

theorem decode_signature_sha256_no_wrong_hash (sig : List Nat) (alg : String) :
    decode_signature sig "SHA256" ≠ .error (.wrongHashAlgorithm alg) := by
  unfold decode_signature
  rw [show hash_algorithms_map_bits.lookup "SHA256" = some 256 from rfl]
  show (match decode_dss_signature sig with
    | none => (Except.error PyErr.invalidDerSignature : Except PyErr (List Nat))
    | some (r, s) => do
      let rb ← int_to_bytes r ((256 + 7) / 8)
      let sb ← int_to_bytes s ((256 + 7) / 8)
      Except.ok (rb ++ sb)) ≠ Except.error (PyErr.wrongHashAlgorithm alg)
  rcases decode_dss_signature sig with _ | ⟨r, s⟩
  · intro h
    cases h
  · show (do
      let rb ← int_to_bytes r ((256 + 7) / 8)
      let sb ← int_to_bytes s ((256 + 7) / 8)
      Except.ok (rb ++ sb)) ≠ Except.error (PyErr.wrongHashAlgorithm alg)
    rcases hr : int_to_bytes r ((256 + 7) / 8) with e | rb
    · have he := int_to_bytes_error_eq r _ e hr
      subst he
      intro hcon
      exact PyErr.noConfusion (Except.error.inj hcon)
    · rcases hsb : int_to_bytes s ((256 + 7) / 8) with e | sb
      · have he := int_to_bytes_error_eq s _ e hsb
        subst he
        intro hcon
        exact PyErr.noConfusion (Except.error.inj hcon)
      · intro hcon
        exact Except.noConfusion hcon

/-- C10: the wrong-hash-algorithm `ValueError` branch of
`_decode_signature` is unreachable from `signWithKey`: whatever hash
selector, crypto selector and key a call supplies, `signWithKey` never
propagates that error, because its own (earlier) validation only lets
the selector `"SHA256"` through, which is a key of
`_decode_signature`'s map. -/
theorem signWithKey_never_wrong_hash (key : PrivateKey)
    (hash_algorithm crypto_algorithm : Option String) (alg : String) :
    signWithKey key hash_algorithm crypto_algorithm
      ≠ .error (.wrongHashAlgorithm alg) := by
  unfold signWithKey
  rcases hn : normalizeHash hash_algorithm with e | ⟨s, a⟩
  · have he := normalizeHash_error_eq hash_algorithm e hn
    subst he
    intro hcon
    exact PyErr.noConfusion (Except.error.inj hcon)
  · have hs : s = "SHA256" := normalizeHash_ok_sha256 hash_algorithm s a hn
    subst hs
    cases key with
    | rsa pkcs pss =>
      show (if crypto_algorithm = some "PS" then Except.ok (b64encode pss)
        else Except.ok (b64encode pkcs)) ≠ _
      by_cases hc : crypto_algorithm = some "PS"
      · rw [if_pos hc]
        intro hcon
        exact Except.noConfusion hcon
      · rw [if_neg hc]
        intro hcon
        exact Except.noConfusion hcon
    | ec der =>
      show (do
        let raw ← decode_signature der "SHA256"
        Except.ok (b64encode raw)) ≠ _
      rcases hd : decode_signature der "SHA256" with e | raw
      · intro hcon
        exact decode_signature_sha256_no_wrong_hash der alg
          (hd.trans (congrArg Except.error (Except.error.inj hcon)))
      · intro hcon
        exact Except.noConfusion hcon
    | other =>
      intro hcon
      exact Except.noConfusion hcon

/-- C10 witness: a concrete call through the elliptic-curve path with
an unparsable DER signature still does not produce the wrong-hash
error. -/
theorem signWithKey_never_wrong_hash_witness :
    signWithKey (PrivateKey.ec []) none none
      ≠ .error (.wrongHashAlgorithm "SHA256") :=
  signWithKey_never_wrong_hash (PrivateKey.ec []) none none "SHA256"

theorem bigEndianBytes_length : ∀ (len n : Nat),
    (bigEndianBytes n len).length = len := by
  intro len
  induction len with
  | zero => intro n; rfl
  | succ k ih =>
    intro n
    show (bigEndianBytes (n / 256) k ++ [n % 256]).length = k + 1
    rw [List.length_append, ih (n / 256)]
    rfl

theorem int_to_bytes_ok (n : Int) (len : Nat) (h0 : 0 ≤ n)
    (h1 : n < ((256 ^ len : Nat) : Int)) :
    int_to_bytes n len = .ok (bigEndianBytes n.toNat len) := by
  unfold int_to_bytes
  rw [if_neg (not_lt.mpr h0), if_pos]
  exact (Int.toNat_lt h0).mpr h1

/-- A well-formed DER ECDSA signature whose `r` needs 33 bytes
(`r = 2^256`, as produced by curves with order above `2^256`, e.g.
P-521, which can legitimately be paired with SHA-256):
`SEQUENCE { INTEGER 2^256, INTEGER 1 }`. -/
def c4WideDer : List Nat :=
  [48, 38, 2, 33] ++ (1 :: List.replicate 32 0) ++ [2, 1, 1]

/-- C4 counterexample: on a DER-encoded ECDSA signature whose `r` does
not fit in 32 bytes, `_decode_signature` does not return 64 bytes — it
raises `OverflowError` from `int_to_bytes(r, 32)`, refuting the claim
for unrestricted DER inputs. -/
theorem decode_signature_not_always_64 :
    decode_dss_signature c4WideDer = some (((2 ^ 256 : Nat) : Int), 1)
    ∧ decode_signature c4WideDer "SHA256" = .error .overflowError := by
  decide

/-- C4 (amended): for every DER-encoded ECDSA signature whose `r` and
`s` are non-negative and fit in 32 bytes (`< 2^256`, which holds for
every ECDSA signature on a curve of order at most `2^256`, e.g. the
P-256 curve standardly paired with SHA-256), `_decode_signature` under
SHA-256 returns exactly 64 bytes — `r` big-endian left-padded with
zeros to 32 bytes, then `s` likewise — regardless of the variable
length of the DER encoding. -/
theorem decode_signature_fixed_width (sig : List Nat) (r s : Int)
    (hparse : decode_dss_signature sig = some (r, s))
    (hr0 : 0 ≤ r) (hr : r < ((2 ^ 256 : Nat) : Int))
    (hs0 : 0 ≤ s) (hs : s < ((2 ^ 256 : Nat) : Int)) :
    decode_signature sig "SHA256"
        = .ok (bigEndianBytes r.toNat 32 ++ bigEndianBytes s.toNat 32)
      ∧ ∀ out, decode_signature sig "SHA256" = .ok out → out.length = 64 := by
  have hpow : (2 ^ 256 : Nat) = 256 ^ 32 := by norm_num
  rw [hpow] at hr hs
  have hrb : int_to_bytes r 32 = .ok (bigEndianBytes r.toNat 32) :=
    int_to_bytes_ok r 32 hr0 hr
  have hsb : int_to_bytes s 32 = .ok (bigEndianBytes s.toNat 32) :=
    int_to_bytes_ok s 32 hs0 hs
  have hmain : decode_signature sig "SHA256"
      = .ok (bigEndianBytes r.toNat 32 ++ bigEndianBytes s.toNat 32) := by
    unfold decode_signature
    rw [show hash_algorithms_map_bits.lookup "SHA256" = some 256 from rfl,
        hparse]
    show (do
      let rb ← int_to_bytes r 32
      let sb ← int_to_bytes s 32
      Except.ok (rb ++ sb))
        = Except.ok (bigEndianBytes r.toNat 32 ++ bigEndianBytes s.toNat 32)
    rw [hrb, hsb]
    rfl
  refine ⟨hmain, ?_⟩
  intro out hout
  have houteq : bigEndianBytes r.toNat 32 ++ bigEndianBytes s.toNat 32 = out :=
    Except.ok.inj (hmain.symm.trans hout)
  rw [← houteq, List.length_append, bigEndianBytes_length,
      bigEndianBytes_length]

/-- C4 witness: a minimal-length DER signature with `r = 1`, `s = 2`
re-encodes to the fixed 64-byte concatenation. -/
theorem decode_signature_fixed_width_witness :
    decode_signature [48, 6, 2, 1, 1, 2, 1, 2] "SHA256"
        = .ok (bigEndianBytes (1 : Int).toNat 32
            ++ bigEndianBytes (2 : Int).toNat 32)
      ∧ ∀ out, decode_signature [48, 6, 2, 1, 1, 2, 1, 2] "SHA256" = .ok out →
          out.length = 64 :=
  decode_signature_fixed_width [48, 6, 2, 1, 1, 2, 1, 2] 1 2 (by decide)
    (by decide) (by decide) (by decide) (by decide)

/-- C5: with TLS parameters present and resolvable client cert/key
paths, `get_ssl_context` obeys the verification policy: a truthy
`verify_cert` environment variable with no (truthy) `ca_cert_path`
yields the configuration error; a truthy `verify_cert` with a CA path
yields a context with hostname checking on and `CERT_REQUIRED`
verification (the `create_default_context` settings are retained); a
falsy `verify_cert` yields a context with hostname checking off and
`CERT_NONE` verification even when a CA bundle was loaded. -/
theorem get_ssl_context_policy (env : String → Option String)
    (root : List String) (t : TLS) (cp kp : String)
    (hcp : getObCertsFilePath root t.cert_path = .ok cp)
    (hkp : getObCertsFilePath root t.key_path = .ok kp) :
    (optTruthy (env "verify_cert") = true → optTruthy t.ca_cert_path = false →
      get_ssl_context env root (some t) = .error .configurationError)
    ∧ (∀ ctx, optTruthy (env "verify_cert") = true →
        get_ssl_context env root (some t) = .ok ctx →
        ctx.check_hostname = true ∧ ctx.verify_mode = .CERT_REQUIRED)
    ∧ (∀ ctx, optTruthy (env "verify_cert") = false →
        get_ssl_context env root (some t) = .ok ctx →
        ctx.check_hostname = false ∧ ctx.verify_mode = .CERT_NONE
          ∧ (optTruthy t.ca_cert_path = true → ctx.ca_loaded.isSome = true)) := by
  have hbase : get_ssl_context env root (some t)
      = (do
          let ctx1 ←
            if optTruthy t.ca_cert_path then do
              let caFile ← getObCertsFilePath root (t.ca_cert_path.getD "")
              pure { create_default_context with
                     cert_chain := some (cp, kp, read_key_password env t.key_path),
                     ca_loaded := some caFile }
            else pure { create_default_context with
                        cert_chain := some (cp, kp, read_key_password env t.key_path) }
          if optTruthy (env "verify_cert") then
            if !optTruthy t.ca_cert_path then
              Except.error PyErr.configurationError
            else Except.ok { ctx1 with verify_flags := 2 }
          else
            Except.ok
              { ctx1 with check_hostname := false, verify_mode := VerifyMode.CERT_NONE }) := by
    simp only [get_ssl_context]
    rw [hcp, hkp]
    rfl
  refine ⟨?_, ?_, ?_⟩
  · intro hv hca
    rw [hbase, hca, hv]
    rfl
  · intro ctx hv hok
    rw [hbase, hv] at hok
    cases hcab : optTruthy t.ca_cert_path with
    | false =>
      rw [hcab] at hok
      exact Except.noConfusion hok
    | true =>
      rw [hcab] at hok
      rcases hcaf : getObCertsFilePath root (t.ca_cert_path.getD "")
          with e | caFile
      · rw [hcaf] at hok
        exact Except.noConfusion hok
      · rw [hcaf] at hok
        have hctx := Except.ok.inj hok
        rw [← hctx]
        exact ⟨rfl, rfl⟩
  · intro ctx hv hok
    rw [hbase, hv] at hok
    cases hcab : optTruthy t.ca_cert_path with
    | false =>
      rw [hcab] at hok
      have hctx := Except.ok.inj hok
      rw [← hctx]
      refine ⟨rfl, rfl, ?_⟩
      intro hcontra
      cases hcontra
    | true =>
      rw [hcab] at hok
      rcases hcaf : getObCertsFilePath root (t.ca_cert_path.getD "")
          with e | caFile
      · rw [hcaf] at hok
        exact Except.noConfusion hok
      · rw [hcaf] at hok
        have hctx := Except.ok.inj hok
        rw [← hctx]
        exact ⟨rfl, rfl, fun _ => rfl⟩

/-- C5 witness: strict verification (truthy `verify_cert`) with no
`ca_cert_path` fails with the configuration error before any network
activity. -/
theorem get_ssl_context_policy_witness :
    get_ssl_context (fun n => if n = "verify_cert" then some "1" else none)
        ["app", "open_banking_certs"] (some (TLS.mk "c.pem" "k.pem" none))
      = .error .configurationError :=
  (get_ssl_context_policy (fun n => if n = "verify_cert" then some "1" else none)
    ["app", "open_banking_certs"] (TLS.mk "c.pem" "k.pem" none)
    "/app/open_banking_certs/c.pem" "/app/open_banking_certs/k.pem"
    (by decide) (by decide)).1 (by decide) (by decide)

/-- C7: when the transport reports a client-level response error
(`aiohttp.ClientResponseError` with a status, message, and optional
headers), `makeRequest` catches it and returns the same normalized
result shape `{status, response, headers}` built from the error's
fields (an absent/falsy header set becomes `[]`), propagating no
exception. -/
theorem makeRequest_client_error_normalized (env : String → Option String)
    (root : List String) (zipExtract : List Nat → Option (List (List Nat)))
    (utf8Decode : List Nat → Option String) (request : MakeRequestParams)
    (ctx : SSLContext) (status : Nat) (message : String)
    (headers : Option (List (String × String)))
    (hctx : get_ssl_context env root request.tls = .ok ctx) :
    makeRequest env root zipExtract utf8Decode request
        (.clientResponseError status message headers)
      = .ok ⟨status, message, headers.getD []⟩ := by
  unfold makeRequest
  rw [hctx]
  rfl

/-- C7 witness: a concrete relay call (no TLS parameters) whose
transport raises a client response error with status 502 returns the
normalized result, not an error. -/
theorem makeRequest_client_error_normalized_witness :
    makeRequest (fun _ => none) [] (fun _ => none) (fun _ => none)
        (MakeRequestParams.mk "GET" "https://h" "/" [] [] "" none)
        (.clientResponseError 502 "Bad Gateway" none)
      = .ok ⟨502, "Bad Gateway", []⟩ :=
  makeRequest_client_error_normalized (fun _ => none) [] (fun _ => none)
    (fun _ => none) (MakeRequestParams.mk "GET" "https://h" "/" [] [] "" none)
    create_unverified_context 502 "Bad Gateway" none rfl

/-- C8: when a response's `Content-Type` is exactly
`application/octet-stream`, the body is treated as a zip archive: if
the external zip library parses it, the first archived file's
decompressed bytes (decoded as UTF-8) become the result body; if the
body is not a valid zip archive, `_handle_binary_response` returns the
raw body verbatim with no error raised, and the relay result carries
that raw body (decoded as UTF-8). -/
theorem makeRequest_octet_stream_unzip (env : String → Option String)
    (root : List String) (zipExtract : List Nat → Option (List (List Nat)))
    (utf8Decode : List Nat → Option String) (request : MakeRequestParams)
    (ctx : SSLContext) (status : Nat) (headers : List (String × String))
    (body : List Nat) (text : String)
    (hctx : get_ssl_context env root request.tls = .ok ctx)
    (hct : getHeaderCI headers "Content-Type"
        = some "application/octet-stream") :
    (∀ f fs s, zipExtract body = some (f :: fs) → utf8Decode f = some s →
        makeRequest env root zipExtract utf8Decode request
            (.success status headers body text) = .ok ⟨status, s, headers⟩)
    ∧ (∀ s, zipExtract body = none → utf8Decode body = some s →
        makeRequest env root zipExtract utf8Decode request
            (.success status headers body text) = .ok ⟨status, s, headers⟩)
    ∧ (zipExtract body = none →
        handle_binary_response zipExtract body = .ok body) := by
  have hmr : makeRequest env root zipExtract utf8Decode request
      (.success status headers body text)
      = (do
          let unwrapped ← handle_binary_response zipExtract body
          match utf8Decode unwrapped with
          | some s => Except.ok ⟨status, s, headers⟩
          | none => Except.error PyErr.unicodeDecodeError) := by
    unfold makeRequest
    rw [hctx]
    show (if getHeaderCI headers "Content-Type"
        = some "application/octet-stream" then
        (do
          let unwrapped ← handle_binary_response zipExtract body
          match utf8Decode unwrapped with
          | some s => Except.ok (⟨status, s, headers⟩ : RelayResult)
          | none => Except.error PyErr.unicodeDecodeError)
      else Except.ok ⟨status, text, headers⟩) = _
    rw [if_pos hct]
  refine ⟨?_, ?_, ?_⟩
  · intro f fs s hzip hud
    have hb : handle_binary_response zipExtract body = .ok f := by
      unfold handle_binary_response
      rw [hzip]
    rw [hmr, hb]
    show (match utf8Decode f with
      | some s => Except.ok (⟨status, s, headers⟩ : RelayResult)
      | none => Except.error PyErr.unicodeDecodeError) = _
    rw [hud]
  · intro s hzip hud
    have hb : handle_binary_response zipExtract body = .ok body := by
      unfold handle_binary_response
      rw [hzip]
    rw [hmr, hb]
    show (match utf8Decode body with
      | some s => Except.ok (⟨status, s, headers⟩ : RelayResult)
      | none => Except.error PyErr.unicodeDecodeError) = _
    rw [hud]
  · intro hzip
    unfold handle_binary_response
    rw [hzip]

/-- C8 witness: a body the zip library rejects (`BadZipFile`) is
passed through verbatim and the relay still returns a normal result
holding its decoded text. -/
theorem makeRequest_octet_stream_unzip_witness :
    makeRequest (fun _ => none) [] (fun _ => none) (fun _ => some "raw")
        (MakeRequestParams.mk "GET" "https://h" "/" [] [] "" none)
        (.success 200 [("Content-Type", "application/octet-stream")] [1, 2] "t")
      = .ok ⟨200, "raw", [("Content-Type", "application/octet-stream")]⟩
    ∧ handle_binary_response (fun _ => none) [1, 2] = .ok [1, 2] := by
  have h := makeRequest_octet_stream_unzip (fun _ => none) [] (fun _ => none)
    (fun _ => some "raw")
    (MakeRequestParams.mk "GET" "https://h" "/" [] [] "" none)
    create_unverified_context 200
    [("Content-Type", "application/octet-stream")] [1, 2] "t" rfl (by decide)
  exact ⟨h.2.1 "raw" rfl rfl, h.2.2 rfl⟩
